import Mathlib

/-!
Shallow embedding of `src/claw-react/src/components/ClawMachine.jsx`.

The component keeps all game state in a mutable ref (`gameRef`) and a set of
"world objects" (arm joint, vertical rail, arm extension, toys), each a plain
record of coordinates, size, depth, rotation, an optional live interval timer,
a `moveWith` list of co-moving objects, and a CSS class list.  We model that
state as an explicit `GameState` record (objects addressed by `ObjRef`), and
each JS function as a pure state transformer.  Numbers that the code treats as
JS floats (coordinates, sizes) are modelled as `ℚ`; integer degree angles as
`ℤ`.  `setInterval` timers are modelled as a list of `Timer` records (the
id set `gameRef.intervals` together with each callback's captured closure
data); firing one tick of a timer is the pure function `runTick`.  Completion
callbacks (`next`) are not interpreted when invoked: invoking a callback
appends its tag to the `fired` log, which is what the claims about callback
counts observe.  Outbound notifications (the collect fetch, the
`TURN_COMPLETE` postMessage) are logged in `messages`.  DOM rendering
(`applyStyles`, `resizeShadow`, the collection-box wrapper nodes) writes no
game state and is omitted.
-/

namespace Claw

/-- The attribute a move drives: `moveKey` is one of `x`, `y`, `h` in the
source. -/
inductive MoveKey
  | x
  | y
  | h
  deriving DecidableEq, Repr

/-- Names for the world objects: the three machine parts created on mount and
the toys created by `createToy` (addressed by their spawn index). -/
inductive ObjRef
  | armJoint
  | vertRail
  | arm
  | toy (n : Nat)
  deriving DecidableEq, Repr

/-- Tags for the completion callbacks (`next`) that the source passes to
`moveObject`.  `stopHoriActivateVert` is `stopHoriBtnAndActivateVertBtn`
(passed by `onHoriBtnDown`); `mk n` stands for an arbitrary caller-supplied
callback in scheduler-level claims. -/
inductive Cb
  | stopHoriActivateVert
  | mk (n : Nat)
  deriving DecidableEq, Repr

/-- Outbound notifications: the collect POST (whose success handler posts the
`TOY_COLLECTED` message) keyed by toy type, and the `TURN_COMPLETE` message. -/
inductive Msg
  | toyCollected (toyType : String)
  | turnComplete
  deriving DecidableEq, Repr

/-- `transformOrigin`: either a point (the object field form) or the string
`'center'` that `collectToy` assigns. -/
inductive TOrigin
  | pt (x y : ℚ)
  | center
  deriving DecidableEq, Repr

/-- One world object (`createWorldObject` / the record built by `createToy`).
`dx, dy, dw, dh` are the `default` pose snapshot; `interval` is the live
timer id if a move is in flight; `moveWith` is the co-moving list (entries
may be `null` in the source, hence `Option`); `classes` is the element's CSS
class list; `toyType`, `index` and `clawPos` are the toy-only extras. -/
structure WObj where
  x : ℚ := 0
  y : ℚ := 0
  z : ℚ := 0
  w : ℚ := 0
  h : ℚ := 0
  angle : ℤ := 0
  transformOrigin : TOrigin := .pt 0 0
  interval : Option Nat := none
  dx : ℚ := 0
  dy : ℚ := 0
  dw : ℚ := 0
  dh : ℚ := 0
  moveWith : List (Option ObjRef) := []
  classes : List String := []
  toyType : String := ""
  index : ℤ := 0
  clawPos : Option (ℚ × ℚ) := none
  deriving DecidableEq, Repr

/-- Read the attribute a move drives (`obj[moveKey]`). -/
def WObj.attr (o : WObj) : MoveKey → ℚ
  | .x => o.x
  | .y => o.y
  | .h => o.h

/-- Write the attribute a move drives (`obj[moveKey] = v`). -/
def WObj.setAttr (o : WObj) : MoveKey → ℚ → WObj
  | .x, v => { o with x := v }
  | .y, v => { o with y := v }
  | .h, v => { o with h := v }

/-- The `default` pose entry for a move key (`obj.default[moveKey]`). -/
def WObj.defaultOf (o : WObj) : MoveKey → ℚ
  | .x => o.dx
  | .y => o.dy
  | .h => o.dh

/-- `classList.add`: a class list is a set, adding an existing token is a
no-op. -/
def addClass (l : List String) (c : String) : List String :=
  if c ∈ l then l else l ++ [c]

/-- `classList.remove`. -/
def removeClass (l : List String) (c : String) : List String :=
  l.filter (fun d => d ≠ c)

/-- JS `arr[0] = v` on the `moveWith` arrays: on `[]` it yields `[v]`, else it
replaces the head. -/
def setIdx0 (l : List (Option ObjRef)) (v : Option ObjRef) : List (Option ObjRef) :=
  match l with
  | [] => [v]
  | _ :: tl => v :: tl

/-- One live `setInterval` timer: its id (member of `gameRef.intervals`),
the object it drives, and the closure data captured by `moveObject`
(`moveKey`, the resolved `moveTarget`, the period, and the `next` callback). -/
structure Timer where
  id : Nat
  objId : ObjRef
  moveKey : MoveKey
  target : ℚ
  period : Nat
  next : Option Cb
  deriving DecidableEq, Repr

/-- The options record taken by `moveObject`. -/
structure MoveOpts where
  moveKey : MoveKey
  target : Option ℚ := none
  moveTime : Option Nat := none
  next : Option Cb := none

/-- The whole mutable game state: the fields of `gameRef.current` the claims
touch, the object store, the timer set (with payloads), the log of invoked
completion callbacks, and the log of outbound notifications.  The geometry
measurements (`machineWidth`, `machineHeight`, `maxArmLength`) are taken from
the DOM on mount and are free parameters here. -/
structure GameState where
  objs : ObjRef → WObj
  toyEls : List ObjRef := []
  targetToy : Option ObjRef := none
  collectedNumber : ℤ := 0
  turnUsed : Bool := false
  remainingTurns : ℤ := 0
  horiLocked : Bool := true
  vertLocked : Bool := true
  machineWidth : ℚ := 0
  machineHeight : ℚ := 0
  maxArmLength : ℚ := 0
  timers : List Timer := []
  nextTimerId : Nat := 0
  fired : List Cb := []
  messages : List Msg := []

/-- Read one object from the store. -/
def GameState.get (s : GameState) (o : ObjRef) : WObj :=
  s.objs o

/-- Replace one object in the store. -/
def GameState.set (s : GameState) (o : ObjRef) (w : WObj) : GameState :=
  { s with objs := fun p => if p = o then w else s.objs p }

@[simp] theorem get_set_same (s : GameState) (o : ObjRef) (w : WObj) :
    (s.set o w).get o = w := by
  simp [GameState.get, GameState.set]

@[simp] theorem get_set_ne (s : GameState) (o p : ObjRef) (w : WObj) (h : p ≠ o) :
    (s.set o w).get p = s.get p := by
  simp [GameState.get, GameState.set, h]

/-- Reading the store of an explicitly assembled state. -/
theorem get_mk (f : ObjRef → WObj) (tE : List ObjRef) (tT : Option ObjRef)
    (cN : ℤ) (tU : Bool) (rT : ℤ) (hL vL : Bool) (mW mH mA : ℚ) (tm : List Timer)
    (nI : Nat) (fr : List Cb) (ms : List Msg) (p : ObjRef) :
    (GameState.mk f tE tT cN tU rT hL vL mW mH mA tm nI fr ms).get p = f p := rfl

/-- Raw store reads normalize back to `get`. -/
theorem objs_eq_get (s : GameState) (p : ObjRef) : s.objs p = s.get p := rfl

-- ---- Angle helpers (lines 8–15 and 226–234 of the source) ----

/-- `adjustAngle` (source lines 12–15): `a = angle % 360` with JS's truncated
remainder, then `a < 0 ? a + 360 : a`. -/
def adjustAngle (angle : ℤ) : ℤ :=
  let a := Int.tmod angle 360
  if a < 0 then a + 360 else a

/-- The rotation value `setRotateAngle` (source lines 226–234) stores for a
raw integer degree angle: `adjusted = Math.round(adjustAngle(angle))` (the
round is the identity on integers) and then
`adjusted < 180 ? adjusted * -1 : 360 - adjusted`. -/
def storedAngle (angle : ℤ) : ℤ :=
  let adjusted := adjustAngle angle
  if adjusted < 180 then -adjusted else 360 - adjusted

/-- The rule as the spec words it (§4.3, for the refinement comparison):
fold into `[0, 360)` by adding 360 while negative, then leave values < 180
unchanged and map values ≥ 180 to `value - 360`. -/
def specNormalize (angle : ℤ) : ℤ :=
  let a := adjustAngle angle
  if a < 180 then a else a - 360

-- ---- Movement scheduler (source lines 96–138) ----

/-- `clearObjInterval` (lines 96–102): if the object holds a timer id, call
`clearInterval` on it (remove it from the live timer set), delete it from
`gameRef.current.intervals`, and null the object's handle. -/
def clearObjInterval (s : GameState) (o : ObjRef) : GameState :=
  match (s.get o).interval with
  | some tid =>
      let s1 := { s with timers := s.timers.filter (fun t => t.id ≠ tid) }
      s1.set o { s1.get o with interval := none }
  | none => s

/-- `moveObject` (lines 104–133).  If the object already has a live timer:
cancel it and, when a `next` callback was supplied on this call, invoke it
immediately (log it to `fired`).  Otherwise resolve
`moveTarget = target ?? obj.default[moveKey]`, create a fresh interval timer
with period `moveTime || 100`, store its id on the object and add it to the
live set. -/
def moveObject (s : GameState) (o : ObjRef) (opts : MoveOpts) : GameState :=
  if (s.get o).interval.isSome then
    let s1 := clearObjInterval s o
    match opts.next with
    | some cb => { s1 with fired := s1.fired ++ [cb] }
    | none => s1
  else
    let moveTarget := opts.target.getD ((s.get o).defaultOf opts.moveKey)
    let tid := s.nextTimerId
    let s1 := s.set o { s.get o with interval := some tid }
    { s1 with
      timers := s1.timers ++
        [⟨tid, o, opts.moveKey, moveTarget, opts.moveTime.getD 100, opts.next⟩],
      nextTimerId := tid + 1 }

/-- `resumeMove` (lines 135–138): null the stale handle, then delegate to
`moveObject`.  Note it does not clear the underlying interval. -/
def resumeMove (s : GameState) (o : ObjRef) (opts : MoveOpts) : GameState :=
  moveObject (s.set o { s.get o with interval := none }) o opts

/-- The attribute of an attached object that a step propagates to
(line 122): `moveKey === 'h' ? 'y' : moveKey`. -/
def propKey : MoveKey → MoveKey
  | .h => .y
  | k => k

/-- The `obj.moveWith.forEach` body of the tick (lines 120–124): for every
non-null entry, step the attached object's corresponding attribute
(`propKey`) by the tick's signed increment. -/
def propagate (k : MoveKey) (inc : ℚ) : GameState → List (Option ObjRef) → GameState
  | s, [] => s
  | s, none :: rest => propagate k inc s rest
  | s, some m :: rest =>
      let mo := s.get m
      propagate k inc (s.set m (mo.setAttr (propKey k) (mo.attr (propKey k) + inc))) rest

/-- The tick's signed step (lines 111–114): `distance` is
`min(|current - target|, 10)` and `increment` is signed toward the captured
target. -/
def tickIncrement (s : GameState) (t : Timer) : ℚ :=
  let cur := (s.get t.objId).attr t.moveKey
  let distance := if |cur - t.target| < 10 then |cur - t.target| else 10
  if cur > t.target then -distance else distance

/-- The tick's guard (line 115): `increment > 0 ? current < target :
current > target`. -/
def tickShouldMove (s : GameState) (t : Timer) : Bool :=
  let cur := (s.get t.objId).attr t.moveKey
  if tickIncrement s t > 0 then decide (cur < t.target) else decide (cur > t.target)

/-- The moving branch of the tick (lines 116–124): step the driver's
attribute by `increment` and propagate the step to the `moveWith` entries. -/
def tickMove (s : GameState) (t : Timer) : GameState :=
  propagate t.moveKey (tickIncrement s t)
    (s.set t.objId
      ((s.get t.objId).setAttr t.moveKey
        ((s.get t.objId).attr t.moveKey + tickIncrement s t)))
    (s.get t.objId).moveWith

/-- The completion branch of the tick (lines 125–128): clear the timer via
`clearObjInterval` and invoke `next` (log it to `fired`). -/
def tickComplete (s : GameState) (t : Timer) : GameState :=
  let s2 := clearObjInterval s t.objId
  match t.next with
  | some cb => { s2 with fired := s2.fired ++ [cb] }
  | none => s2

/-- One firing of the interval callback created by `moveObject` for timer
`tid` (the tick body, lines 110–128).  A `tid` not in the live set fires
nothing. -/
def runTick (s : GameState) (tid : Nat) : GameState :=
  match s.timers.find? (fun t => t.id = tid) with
  | none => s
  | some t => if tickShouldMove s t then tickMove s t else tickComplete s t

/-- `n` consecutive firings of timer `tid`. -/
def runTicks (s : GameState) (tid : Nat) : Nat → GameState
  | 0 => s
  | n + 1 => runTicks (runTick s tid) tid n

-- ---- Targeting (source lines 238–257) ----

/-- The anonymous claw rectangle built by `getClosestToy` (lines 243–248)
from the arm joint's current position. -/
structure Rect where
  x : ℚ
  y : ℚ
  w : ℚ
  h : ℚ
  deriving DecidableEq, Repr

/-- The rectangle footprint of a world object. -/
def WObj.rect (o : WObj) : Rect :=
  ⟨o.x, o.y, o.w, o.h⟩

/-- `MACHINE_BUFFER` (line 6). -/
def machineBufferX : ℚ := 36

def machineBufferY : ℚ := 16

/-- The claw footprint (lines 243–248): fixed 40×32 rectangle at the arm
joint's coordinates plus constant offsets. -/
def clawRect (s : GameState) : Rect :=
  { y := (s.get .armJoint).y + s.maxArmLength + machineBufferY + 7
    x := (s.get .armJoint).x + 7
    w := 40
    h := 32 }

/-- `doOverlap` (line 238): `b.x > a.x && b.x < a.x + a.w && b.y > a.y &&
b.y < a.y + a.h`. -/
def doOverlap (a b : Rect) : Bool :=
  (b.x > a.x) && (b.x < a.x + a.w) && (b.y > a.y) && (b.y < a.y + a.h)

/-- Insert into a list kept in descending `key` order. -/
def insertDescBy (key : ObjRef → ℤ) (r : ObjRef) : List ObjRef → List ObjRef
  | [] => [r]
  | a :: as' => if key r ≥ key a then r :: a :: as' else a :: insertDescBy key r as'

/-- The `sort((a, b) => b.index - a.index)` call of line 251: sort descending
by the key (realised as an insertion sort; the claims only use the head,
which any implementation of that comparator makes a maximal-key element). -/
def sortDescBy (key : ObjRef → ℤ) : List ObjRef → List ObjRef
  | [] => []
  | r :: rs => insertDescBy key r (sortDescBy key rs)

/-- `getClosestToy` (lines 240–257): filter `toyEls` by overlap with the claw
footprint; if any overlap, take the greatest-index one, anchor its
`transformOrigin` to the claw-relative offset, record `clawPos`, and store it
as `targetToy`. -/
def getClosestToy (s : GameState) : GameState :=
  let claw := clawRect s
  let overlapped := s.toyEls.filter (fun r => doOverlap (s.get r).rect claw)
  match sortDescBy (fun r => (s.get r).index) overlapped with
  | [] => s
  | c :: _ =>
      let toy := s.get c
      let s1 := s.set c
        { toy with
          transformOrigin := .pt (claw.x - toy.x) (claw.y - toy.y)
          clawPos := some (claw.x, claw.y) }
      { s1 with targetToy := some c }

-- ---- Buttons and game logic (source lines 259–342, 142–224, 284–323) ----

/-- `activateHoriBtn` (lines 268–275): guard `remainingTurns <= 0` first;
otherwise reset `turnUsed`, unlock/activate the horizontal button, and clear
any live intervals of the vertical rail, arm joint and arm. -/
def activateHoriBtn (s : GameState) : GameState :=
  if s.remainingTurns ≤ 0 then s
  else
    let s1 := { s with turnUsed := false, horiLocked := false }
    [ObjRef.vertRail, ObjRef.armJoint, ObjRef.arm].foldl clearObjInterval s1

/-- `onHoriBtnDown` (lines 327–336): unconditionally remove the arm's
`missed` class and start moving the vertical rail toward the far horizontal
bound with `stopHoriBtnAndActivateVertBtn` as completion callback.  The
handler performs no `remainingTurns` or lock check. -/
def onHoriBtnDown (s : GameState) : GameState :=
  let s0 := s.set .arm
    { s.get .arm with classes := removeClass (s.get .arm).classes "missed" }
  moveObject s0 .vertRail
    { moveKey := .x
      target := some (s0.machineWidth - (s0.get .armJoint).w - machineBufferX)
      next := some .stopHoriActivateVert }

/-- `collectToy` (lines 182–224): drop the `selected` class, relocate the toy
to the centered display slot, raise its depth, reset its transform origin to
`center`, add the `display` class, increment `collectedNumber`, and send the
collect notification (the POST whose success handler emits `TOY_COLLECTED`).
The collection-box wrapper DOM and the arrow timeout are visual only. -/
def collectToy (s : GameState) (r : ObjRef) : GameState :=
  let toy := s.get r
  let toy1 :=
    { toy with
      classes := addClass (removeClass toy.classes "selected") "display"
      x := s.machineWidth / 2 - toy.w / 2
      y := s.machineHeight / 2 - toy.h / 2
      z := 7
      transformOrigin := .center }
  { s.set r toy1 with
    collectedNumber := s.collectedNumber + 1
    messages := s.messages ++ [.toyCollected toy.toyType] }

/-- Modelled from the spec: the stylesheet `ClawMachine.css` is not under
`src/`, and it is what gates pointer interaction with a toy element.  Per the
spec, a toy is clickable only in its post-drop `selected` visual state
("Each toy is clickable exactly once in its post-drop 'selected' visual
state", "toys become clickable once 'selected'", "becomes non-interactive
once collected").  So a click reaches the listener installed by `createToy`
(line 177) — which invokes `collectToy` — iff the toy currently carries the
`selected` class; otherwise the click is a no-op. -/
def clickToy (s : GameState) (r : ObjRef) : GameState :=
  if "selected" ∈ (s.get r).classes then collectToy s r else s

/-- `setRotateAngle` (lines 226–234) applied to toy `r`.  The raw angle is
`radToDeg(Math.atan2(...)) - 90`, an integer number of degrees computed with
float trigonometry from the toy/claw positions; it is abstracted here as the
integer input `rawAngle`, and the stored rotation is `storedAngle rawAngle`
exactly as in the source. -/
def setRotateAngleOn (s : GameState) (r : ObjRef) (rawAngle : ℤ) : GameState :=
  s.set r { s.get r with angle := storedAngle rawAngle }

/-- `grabToy` (lines 313–323): if a toy is targeted, write it into slot 0 of
the `moveWith` arrays of the vertical rail, arm joint and arm, set its
rotation via `setRotateAngle`, and mark it `grabbed`; otherwise mark the arm
`missed`. -/
def grabToy (s : GameState) (rawAngle : ℤ) : GameState :=
  match s.targetToy with
  | some t =>
      let s1 := [ObjRef.vertRail, ObjRef.armJoint, ObjRef.arm].foldl
        (fun acc o =>
          acc.set o { acc.get o with moveWith := setIdx0 (acc.get o).moveWith (some t) })
        s
      let s2 := setRotateAngleOn s1 t rawAngle
      s2.set t { s2.get t with classes := addClass (s2.get t).classes "grabbed" }
  | none =>
      s.set .arm { s.get .arm with classes := addClass (s.get .arm).classes "missed" }

/-- The immediate part of `dropToy` (lines 284–296): open the claw, and if a
toy is targeted, raise its depth, start its fall toward the machine floor
(no completion callback, 50 ms period), and null slot 0 of the three
`moveWith` arrays (detach). -/
def dropToy (s : GameState) : GameState :=
  let s0 := s.set .arm
    { s.get .arm with classes := addClass (s.get .arm).classes "open" }
  match s0.targetToy with
  | some t =>
      let s1 := s0.set t { s0.get t with z := 3 }
      let s2 := moveObject s1 t
        { moveKey := .y
          target := some (s1.machineHeight - (s1.get t).h - 30)
          moveTime := some 50 }
      [ObjRef.vertRail, ObjRef.armJoint, ObjRef.arm].foldl
        (fun acc o =>
          acc.set o { acc.get o with moveWith := setIdx0 (acc.get o).moveWith none })
        s2
  | none => s0

/-- The `setTimeout` body of `dropToy` (lines 297–310): close the claw, mark
the turn used, decrement `remainingTurns`, post `TURN_COMPLETE`, run
`activateHoriBtn`, and if a toy was held mark it `selected` and clear
`targetToy`. -/
def dropToyDelayed (s : GameState) : GameState :=
  let s0 := s.set .arm
    { s.get .arm with classes := removeClass (s.get .arm).classes "open" }
  let s1 :=
    { s0 with
      turnUsed := true
      remainingTurns := s0.remainingTurns - 1
      messages := s0.messages ++ [.turnComplete] }
  let s2 := activateHoriBtn s1
  match s2.targetToy with
  | some t =>
      { s2.set t { s2.get t with classes := addClass (s2.get t).classes "selected" } with
        targetToy := none }
  | none => s2

-- ---- Concrete example states ----

/-- A minimal state: every object at its default pose, no timers, no turns. -/
def exBase : GameState := { objs := fun _ => {} }

/-- State for the turn-guard claims: `remainingTurns = 0`, horizontal button
locked, no live timers, machine 300 wide. -/
def exC1 : GameState :=
  { objs := fun _ => {}, machineWidth := 300, remainingTurns := 0, horiLocked := true }

/-- State for the attachment claims: the mount-time `moveWith` wiring
(`vertRail.moveWith = [null, armJoint]`, line 445) with toy 0 targeted. -/
def exC4 : GameState :=
  { objs := fun p =>
      match p with
      | .vertRail => { moveWith := [none, some .armJoint] }
      | _ => {}
    targetToy := some (.toy 0)
    toyEls := [.toy 0]
    machineHeight := 400 }

-- ---- C3: angle normalization ----

/-- C3 counterexample: the claim says the stored rotation for raw angle 90
is 90 (fold leaves values < 180 unchanged), but `setRotateAngle` stores
`adjusted * -1 = -90`. -/
theorem c3_counterexample :
    storedAngle 90 = -90 ∧ specNormalize 90 = 90 ∧ storedAngle 90 ≠ specNormalize 90 := by
  decide

theorem adjustAngle_eq_emod (θ : ℤ) : adjustAngle θ = θ % 360 := by
  simp only [adjustAngle]
  cases θ with
  | ofNat m =>
      rw [show Int.tmod (Int.ofNat m) 360 = Int.ofNat (m % 360) from rfl]
      rw [Int.ofNat_eq_natCast, Int.ofNat_eq_natCast]
      omega
  | negSucc m =>
      rw [show Int.tmod (Int.negSucc m) 360 = -Int.ofNat ((m + 1) % 360) from rfl]
      rw [Int.ofNat_eq_natCast, Int.negSucc_eq]
      omega

/-- C3 (amended): the stored rotation is the NEGATION of the claimed rule
(values < 180 map to their negative, values ≥ 180 to `360 - value`); it
always lies in `(-180, 180]`, and raw angles differing by a multiple of 360
store the same rotation. -/
theorem c3_stored_rotation (θ k : ℤ) :
    storedAngle θ = -(specNormalize θ) ∧
    -180 < storedAngle θ ∧ storedAngle θ ≤ 180 ∧
    storedAngle (θ + 360 * k) = storedAngle θ := by
  have h1 : adjustAngle θ = θ % 360 := adjustAngle_eq_emod θ
  have h2 : adjustAngle (θ + 360 * k) = (θ + 360 * k) % 360 := adjustAngle_eq_emod _
  have h3 : (θ + 360 * k) % 360 = θ % 360 := by omega
  have hlo : 0 ≤ θ % 360 := Int.emod_nonneg θ (by norm_num)
  have hhi : θ % 360 < 360 := Int.emod_lt_of_pos θ (by norm_num)
  simp only [storedAngle, specNormalize, h1, h2, h3]
  by_cases hc : θ % 360 < 180 <;> simp [hc] <;> omega

-- ---- C6: cancel-and-resume equivalence ----

/-- The uninterrupted run: move toy 0 from `x = 0` to 100 (timer id 0) and
fire its timer 11 times (10 moving ticks and the completing tick). -/
def c6Uninterrupted : GameState :=
  runTicks
    (moveObject exBase (.toy 0) { moveKey := .x, target := some 100, next := some (.mk 1) })
    0 11

/-- The interrupted run: same move, 3 ticks (`x = 30`), cancel the timer,
immediately resume toward 100 with a completion callback (timer id 1), and
fire the new timer 8 times (7 moving ticks and the completing tick). -/
def c6Resumed : GameState :=
  runTicks
    (resumeMove
      (clearObjInterval
        (runTicks
          (moveObject exBase (.toy 0)
            { moveKey := .x, target := some 100, next := some (.mk 1) })
          0 3)
        (.toy 0))
      (.toy 0) { moveKey := .x, target := some 100, next := some (.mk 2) })
    1 8

/-- C6: a move from 0 toward 100 in default steps of 10, cancelled after 3
ticks (current = 30) and immediately resumed toward 100, drives the
attribute to exactly 100 and fires exactly one completion callback — the
same count as the uninterrupted run. -/
theorem c6_cancel_resume_equiv :
    ((runTicks
        (moveObject exBase (.toy 0)
          { moveKey := .x, target := some 100, next := some (.mk 1) })
        0 3).get (.toy 0)).attr .x = 30 ∧
    (c6Resumed.get (.toy 0)).attr .x = 100 ∧
    c6Resumed.fired.length = 1 ∧
    (c6Uninterrupted.get (.toy 0)).attr .x = 100 ∧
    c6Uninterrupted.fired.length = 1 ∧
    c6Resumed.fired.length = c6Uninterrupted.fired.length := by
  norm_num [c6Resumed, c6Uninterrupted, runTicks, runTick, tickIncrement,
    tickShouldMove, tickMove, tickComplete, propagate, moveObject, resumeMove,
    clearObjInterval, exBase, GameState.get, GameState.set, WObj.attr,
    WObj.setAttr, WObj.defaultOf, List.find?]

-- ---- Frame lemmas for the scheduler primitives ----

theorem WObj.eta_interval (w : WObj) : ({ w with interval := w.interval } : WObj) = w :=
  rfl

@[simp] theorem set_targetToy (s : GameState) (o : ObjRef) (w : WObj) :
    (s.set o w).targetToy = s.targetToy := rfl

@[simp] theorem set_toyEls (s : GameState) (o : ObjRef) (w : WObj) :
    (s.set o w).toyEls = s.toyEls := rfl

@[simp] theorem set_collectedNumber (s : GameState) (o : ObjRef) (w : WObj) :
    (s.set o w).collectedNumber = s.collectedNumber := rfl

@[simp] theorem set_remainingTurns (s : GameState) (o : ObjRef) (w : WObj) :
    (s.set o w).remainingTurns = s.remainingTurns := rfl

@[simp] theorem set_turnUsed (s : GameState) (o : ObjRef) (w : WObj) :
    (s.set o w).turnUsed = s.turnUsed := rfl

@[simp] theorem set_horiLocked (s : GameState) (o : ObjRef) (w : WObj) :
    (s.set o w).horiLocked = s.horiLocked := rfl

@[simp] theorem set_machineWidth (s : GameState) (o : ObjRef) (w : WObj) :
    (s.set o w).machineWidth = s.machineWidth := rfl

@[simp] theorem set_machineHeight (s : GameState) (o : ObjRef) (w : WObj) :
    (s.set o w).machineHeight = s.machineHeight := rfl

@[simp] theorem set_maxArmLength (s : GameState) (o : ObjRef) (w : WObj) :
    (s.set o w).maxArmLength = s.maxArmLength := rfl

@[simp] theorem set_timers (s : GameState) (o : ObjRef) (w : WObj) :
    (s.set o w).timers = s.timers := rfl

@[simp] theorem set_nextTimerId (s : GameState) (o : ObjRef) (w : WObj) :
    (s.set o w).nextTimerId = s.nextTimerId := rfl

@[simp] theorem set_fired (s : GameState) (o : ObjRef) (w : WObj) :
    (s.set o w).fired = s.fired := rfl

@[simp] theorem set_messages (s : GameState) (o : ObjRef) (w : WObj) :
    (s.set o w).messages = s.messages := rfl

/-- `clearObjInterval` only nulls the object's timer handle in the store. -/
theorem clearObjInterval_get (s : GameState) (o p : ObjRef) :
    (clearObjInterval s o).get p =
      if p = o then { s.get o with interval := none } else s.get p := by
  unfold clearObjInterval
  cases h : (s.get o).interval with
  | none =>
      by_cases hp : p = o
      · subst hp
        have he : ({ s.get p with interval := none } : WObj) = s.get p := by
          rw [← h]
        rw [if_pos rfl, he]
      · rw [if_neg hp]
  | some tid =>
      by_cases hp : p = o
      · subst hp
        simp [GameState.get, GameState.set]
      · simp [GameState.get, GameState.set, hp]

@[simp] theorem clearObjInterval_fired (s : GameState) (o : ObjRef) :
    (clearObjInterval s o).fired = s.fired := by
  unfold clearObjInterval
  cases h : (s.get o).interval <;> rfl

@[simp] theorem clearObjInterval_targetToy (s : GameState) (o : ObjRef) :
    (clearObjInterval s o).targetToy = s.targetToy := by
  unfold clearObjInterval
  cases h : (s.get o).interval <;> rfl

@[simp] theorem clearObjInterval_toyEls (s : GameState) (o : ObjRef) :
    (clearObjInterval s o).toyEls = s.toyEls := by
  unfold clearObjInterval
  cases h : (s.get o).interval <;> rfl

@[simp] theorem clearObjInterval_collectedNumber (s : GameState) (o : ObjRef) :
    (clearObjInterval s o).collectedNumber = s.collectedNumber := by
  unfold clearObjInterval
  cases h : (s.get o).interval <;> rfl

@[simp] theorem clearObjInterval_remainingTurns (s : GameState) (o : ObjRef) :
    (clearObjInterval s o).remainingTurns = s.remainingTurns := by
  unfold clearObjInterval
  cases h : (s.get o).interval <;> rfl

@[simp] theorem clearObjInterval_messages (s : GameState) (o : ObjRef) :
    (clearObjInterval s o).messages = s.messages := by
  unfold clearObjInterval
  cases h : (s.get o).interval <;> rfl

@[simp] theorem clearObjInterval_machineWidth (s : GameState) (o : ObjRef) :
    (clearObjInterval s o).machineWidth = s.machineWidth := by
  unfold clearObjInterval
  cases h : (s.get o).interval <;> rfl

@[simp] theorem clearObjInterval_machineHeight (s : GameState) (o : ObjRef) :
    (clearObjInterval s o).machineHeight = s.machineHeight := by
  unfold clearObjInterval
  cases h : (s.get o).interval <;> rfl

@[simp] theorem clearObjInterval_maxArmLength (s : GameState) (o : ObjRef) :
    (clearObjInterval s o).maxArmLength = s.maxArmLength := by
  unfold clearObjInterval
  cases h : (s.get o).interval <;> rfl

@[simp] theorem clearObjInterval_nextTimerId (s : GameState) (o : ObjRef) :
    (clearObjInterval s o).nextTimerId = s.nextTimerId := by
  unfold clearObjInterval
  cases h : (s.get o).interval <;> rfl

/-- Like `clearObjInterval_get`, phrased on the raw store projection
(`get` is the projection definitionally). -/
theorem clearObjInterval_objs (s : GameState) (o p : ObjRef) :
    (clearObjInterval s o).objs p =
      if p = o then { s.get o with interval := none } else s.get p :=
  clearObjInterval_get s o p

/-- `moveObject` changes at most an object's timer handle in the store. -/
theorem moveObject_get (s : GameState) (o : ObjRef) (opts : MoveOpts) (p : ObjRef) :
    ∃ iv, (moveObject s o opts).get p = { s.get p with interval := iv } := by
  by_cases hp : p = o
  · subst hp
    unfold moveObject
    split
    · cases opts.next with
      | none =>
          refine ⟨none, ?_⟩
          simp [GameState.get, clearObjInterval_objs]
      | some cb =>
          refine ⟨none, ?_⟩
          simp [GameState.get, clearObjInterval_objs]
    · refine ⟨some s.nextTimerId, ?_⟩
      simp [GameState.get, GameState.set]
  · refine ⟨(s.get p).interval, ?_⟩
    have he : ({ s.get p with interval := (s.get p).interval } : WObj) = s.get p :=
      WObj.eta_interval _
    rw [he]
    unfold moveObject
    split
    · cases opts.next with
      | none => simp [GameState.get, clearObjInterval_objs, hp]
      | some cb => simp [GameState.get, clearObjInterval_objs, hp]
    · simp [GameState.get, GameState.set, hp]

@[simp] theorem moveObject_get_moveWith (s : GameState) (o : ObjRef) (opts : MoveOpts)
    (p : ObjRef) : ((moveObject s o opts).get p).moveWith = (s.get p).moveWith := by
  obtain ⟨iv, hiv⟩ := moveObject_get s o opts p
  rw [hiv]

@[simp] theorem moveObject_get_classes (s : GameState) (o : ObjRef) (opts : MoveOpts)
    (p : ObjRef) : ((moveObject s o opts).get p).classes = (s.get p).classes := by
  obtain ⟨iv, hiv⟩ := moveObject_get s o opts p
  rw [hiv]

@[simp] theorem moveObject_get_w (s : GameState) (o : ObjRef) (opts : MoveOpts)
    (p : ObjRef) : ((moveObject s o opts).get p).w = (s.get p).w := by
  obtain ⟨iv, hiv⟩ := moveObject_get s o opts p
  rw [hiv]

@[simp] theorem moveObject_get_h (s : GameState) (o : ObjRef) (opts : MoveOpts)
    (p : ObjRef) : ((moveObject s o opts).get p).h = (s.get p).h := by
  obtain ⟨iv, hiv⟩ := moveObject_get s o opts p
  rw [hiv]

@[simp] theorem moveObject_get_toyType (s : GameState) (o : ObjRef) (opts : MoveOpts)
    (p : ObjRef) : ((moveObject s o opts).get p).toyType = (s.get p).toyType := by
  obtain ⟨iv, hiv⟩ := moveObject_get s o opts p
  rw [hiv]

@[simp] theorem moveObject_targetToy (s : GameState) (o : ObjRef) (opts : MoveOpts) :
    (moveObject s o opts).targetToy = s.targetToy := by
  unfold moveObject
  split
  · cases opts.next <;> simp
  · simp

@[simp] theorem moveObject_toyEls (s : GameState) (o : ObjRef) (opts : MoveOpts) :
    (moveObject s o opts).toyEls = s.toyEls := by
  unfold moveObject
  split
  · cases opts.next <;> simp
  · simp

@[simp] theorem moveObject_collectedNumber (s : GameState) (o : ObjRef) (opts : MoveOpts) :
    (moveObject s o opts).collectedNumber = s.collectedNumber := by
  unfold moveObject
  split
  · cases opts.next <;> simp
  · simp

@[simp] theorem moveObject_remainingTurns (s : GameState) (o : ObjRef) (opts : MoveOpts) :
    (moveObject s o opts).remainingTurns = s.remainingTurns := by
  unfold moveObject
  split
  · cases opts.next <;> simp
  · simp

@[simp] theorem moveObject_messages (s : GameState) (o : ObjRef) (opts : MoveOpts) :
    (moveObject s o opts).messages = s.messages := by
  unfold moveObject
  split
  · cases opts.next <;> simp
  · simp

@[simp] theorem moveObject_machineWidth (s : GameState) (o : ObjRef) (opts : MoveOpts) :
    (moveObject s o opts).machineWidth = s.machineWidth := by
  unfold moveObject
  split
  · cases opts.next <;> simp
  · simp

@[simp] theorem moveObject_machineHeight (s : GameState) (o : ObjRef) (opts : MoveOpts) :
    (moveObject s o opts).machineHeight = s.machineHeight := by
  unfold moveObject
  split
  · cases opts.next <;> simp
  · simp

@[simp] theorem moveObject_maxArmLength (s : GameState) (o : ObjRef) (opts : MoveOpts) :
    (moveObject s o opts).maxArmLength = s.maxArmLength := by
  unfold moveObject
  split
  · cases opts.next <;> simp
  · simp

-- ---- C1: turn guard ----

/-- C1 counterexample: in a state with `remainingTurns = 0`, the horizontal
button locked and no live timers, a horizontal press (`onHoriBtnDown`) is
NOT a no-op — the handler performs no turn check, so it creates a movement
timer and starts the rail move. -/
theorem c1_counterexample :
    exC1.remainingTurns ≤ 0 ∧ exC1.horiLocked = true ∧ exC1.timers = [] ∧
    (onHoriBtnDown exC1).timers.length = 1 ∧
    ((onHoriBtnDown exC1).get .vertRail).interval = some 0 := by
  exact ⟨by norm_num [exC1], rfl, rfl, rfl, rfl⟩

/-- C1 (amended): the `remainingTurns <= 0` guard sits on the horizontal
button ACTIVATION, not on the press handler: whenever `remainingTurns <= 0`,
`activateHoriBtn` leaves the whole game state unchanged (the button is never
unlocked, `turnUsed` is untouched and no timers are cleared), while the
press handler itself starts rail motion regardless of the turn budget. -/
theorem c1_turn_guard_on_activation (s : GameState) (h : s.remainingTurns ≤ 0) :
    activateHoriBtn s = s := by
  unfold activateHoriBtn
  rw [if_pos h]

/-- Witness for C1's amended theorem at the concrete zero-turn state. -/
theorem c1_witness : exC1.remainingTurns ≤ 0 ∧ activateHoriBtn exC1 = exC1 :=
  ⟨by norm_num [exC1], c1_turn_guard_on_activation exC1 (by norm_num [exC1])⟩

-- ---- C4: attachment lists ----

/-- C4 counterexample: from the mount-time wiring
(`vertRail.moveWith = [null, armJoint]`, line 445) a grab makes the vertical
rail's attached list hold TWO objects (the toy in slot 0 and the arm joint in
slot 1), so the toy is not the sole entry and the at-most-one bound fails. -/
theorem c4_counterexample :
    exC4.targetToy = some (.toy 0) ∧
    ((grabToy exC4 0).get .vertRail).moveWith = [some (.toy 0), some .armJoint] ∧
    (((grabToy exC4 0).get .vertRail).moveWith.filterMap id).length = 2 := by
  exact ⟨rfl, rfl, rfl⟩

/-- C4 (amended): from the mount-time list shapes, attaching writes the
targeted toy into slot 0 of all three lists — making it the sole entry of the
arm joint's and arm's lists, but the vertical rail's list then holds two
objects (the toy plus the permanently attached arm joint) — and detaching
(`dropToy`) resets slot 0 to null on all three, leaving the arm joint
attached to the rail. -/
theorem c4_attach_detach (s : GameState) (n : Nat) (θ : ℤ)
    (ht : s.targetToy = some (.toy n))
    (hvr : (s.get .vertRail).moveWith = [none, some .armJoint])
    (haj : (s.get .armJoint).moveWith = [])
    (har : (s.get .arm).moveWith = []) :
    ((grabToy s θ).get .vertRail).moveWith = [some (.toy n), some .armJoint] ∧
    ((grabToy s θ).get .armJoint).moveWith = [some (.toy n)] ∧
    ((grabToy s θ).get .arm).moveWith = [some (.toy n)] ∧
    ((dropToy (grabToy s θ)).get .vertRail).moveWith = [none, some .armJoint] ∧
    ((dropToy (grabToy s θ)).get .armJoint).moveWith = [none] ∧
    ((dropToy (grabToy s θ)).get .arm).moveWith = [none] := by
  simp only [grabToy, dropToy, ht, setRotateAngleOn, List.foldl_cons, List.foldl_nil]
  simp [ht, hvr, haj, har, setIdx0]

/-- Witness for C4's amended theorem at the concrete mount-time state. -/
theorem c4_witness :
    exC4.targetToy = some (.toy 0) ∧
    (exC4.get .vertRail).moveWith = [none, some .armJoint] ∧
    ((grabToy exC4 0).get .armJoint).moveWith = [some (.toy 0)] ∧
    ((dropToy (grabToy exC4 0)).get .vertRail).moveWith = [none, some .armJoint] :=
  ⟨rfl, rfl, (c4_attach_detach exC4 0 0 rfl rfl rfl rfl).2.1,
    (c4_attach_detach exC4 0 0 rfl rfl rfl rfl).2.2.2.1⟩

-- ---- More scheduler lemmas ----

@[simp] theorem attr_update_interval (w : WObj) (iv : Option Nat) (k : MoveKey) :
    (({ w with interval := iv } : WObj)).attr k = w.attr k := by
  cases k <;> rfl

theorem clearObjInterval_timers_of_some (s : GameState) (o : ObjRef) (tid : Nat)
    (h : (s.get o).interval = some tid) :
    (clearObjInterval s o).timers = s.timers.filter (fun t => t.id ≠ tid) := by
  unfold clearObjInterval
  simp [h]

theorem find?_append_right {α : Type} (p : α → Bool) (l1 l2 : List α)
    (h : l1.find? p = none) : (l1 ++ l2).find? p = l2.find? p := by
  induction l1 with
  | nil => rfl
  | cons a l ih =>
      rw [List.find?_cons] at h
      cases hp : p a with
      | true => rw [hp] at h; exact absurd h (by simp)
      | false =>
          rw [hp] at h
          rw [List.cons_append, List.find?_cons, hp]
          exact ih h

-- ---- C5: move on an already-moving object ----

/-- C5: calling `moveObject` on an object with an active timer cancels that
timer (it is removed from the live set and the handle nulled) without
changing any positional attribute of any object, appends exactly the
newly-supplied `onComplete` (if any) to the fired log — so the in-flight
timer's own callback is never invoked — and does nothing further. -/
theorem c5_move_on_active (s : GameState) (o : ObjRef) (opts : MoveOpts) (tid : Nat)
    (h : (s.get o).interval = some tid) :
    (∀ p k, ((moveObject s o opts).get p).attr k = (s.get p).attr k) ∧
    ((moveObject s o opts).get o).interval = none ∧
    (moveObject s o opts).timers = s.timers.filter (fun t => t.id ≠ tid) ∧
    (moveObject s o opts).fired = s.fired ++ opts.next.toList := by
  have hsome : (s.get o).interval.isSome = true := by rw [h]; rfl
  have hmain :
      moveObject s o opts =
        (match opts.next with
          | some cb => { clearObjInterval s o with fired := (clearObjInterval s o).fired ++ [cb] }
          | none => clearObjInterval s o) := by
    unfold moveObject
    rw [if_pos hsome]
  have hobjs : ∀ p, (moveObject s o opts).get p = (clearObjInterval s o).get p := by
    intro p
    rw [hmain]
    cases opts.next <;> rfl
  refine ⟨?_, ?_, ?_, ?_⟩
  · intro p k
    rw [hobjs, clearObjInterval_get]
    by_cases hp : p = o <;> simp [hp]
  · rw [hobjs, clearObjInterval_get, if_pos rfl]
  · have ht : (moveObject s o opts).timers = (clearObjInterval s o).timers := by
      rw [hmain]; cases opts.next <;> rfl
    rw [ht, clearObjInterval_timers_of_some s o tid h]
  · rw [hmain]
    cases opts.next <;> simp

/-- Concrete state for the C5 witness: the arm holds live timer 5 whose own
callback is `mk 7`. -/
def exC5 : GameState :=
  { objs := fun p => match p with
      | .arm => { x := 20, interval := some 5 }
      | _ => {}
    timers := [⟨5, .arm, .x, 40, 100, some (.mk 7)⟩]
    nextTimerId := 6 }

/-- Witness for C5 at a concrete state: the new call's callback fires, the
in-flight timer (and its `mk 7` callback) is discarded, `x` is untouched. -/
theorem c5_witness :
    (exC5.get .arm).interval = some 5 ∧
    (moveObject exC5 .arm { moveKey := .x, target := some 80, next := some (.mk 9) }).fired
      = [Cb.mk 9] ∧
    (moveObject exC5 .arm { moveKey := .x, target := some 80, next := some (.mk 9) }).timers
      = [] ∧
    ((moveObject exC5 .arm { moveKey := .x, target := some 80, next := some (.mk 9) }).get
        .arm).attr .x = (exC5.get .arm).attr .x := by
  have h := c5_move_on_active exC5 .arm
    { moveKey := .x, target := some 80, next := some (.mk 9) } 5 rfl
  refine ⟨rfl, ?_, ?_, h.1 .arm .x⟩
  · rw [h.2.2.2]; rfl
  · rw [h.2.2.1]; rfl

/-- A tick of a timer id that is not in the live set does nothing. -/
theorem runTick_of_find_none (s : GameState) (tid : Nat)
    (h : s.timers.find? (fun t => t.id = tid) = none) : runTick s tid = s := by
  unfold runTick
  rw [h]

/-- The tick body for a found timer, as an equation. -/
theorem runTick_eq (s : GameState) (tid : Nat) (t : Timer)
    (hfind : s.timers.find? (fun u => u.id = tid) = some t) :
    runTick s tid = if tickShouldMove s t then tickMove s t else tickComplete s t := by
  unfold runTick
  rw [hfind]

/-- A tick of a timer whose object is already exactly at the captured target
takes the completion branch: it clears the object's interval and fires the
timer's callback (if any). -/
theorem runTick_complete (s : GameState) (tid : Nat) (t : Timer)
    (hfind : s.timers.find? (fun u => u.id = tid) = some t)
    (hcur : (s.get t.objId).attr t.moveKey = t.target) :
    runTick s tid =
      (match t.next with
        | some cb =>
            { clearObjInterval s t.objId with
              fired := (clearObjInterval s t.objId).fired ++ [cb] }
        | none => clearObjInterval s t.objId) := by
  have hsm : tickShouldMove s t = false := by
    unfold tickShouldMove tickIncrement
    norm_num [hcur]
  rw [runTick_eq s tid t hfind, if_neg (by rw [hsm]; exact Bool.false_ne_true)]
  unfold tickComplete
  rfl

-- ---- C8: zero-distance move ----

/-- C8: on an object with no active timer, a `moveObject` whose target equals
the attribute's current value creates a timer whose first tick computes a
zero step, so that tick invokes the completion callback exactly once (the
fired log grows by exactly `[cb]` over the whole move-plus-first-tick), the
attribute is unchanged, and the timer is gone afterwards (a further tick of
that id is the identity, so the callback cannot fire again). -/
theorem c8_zero_distance_move (s : GameState) (o : ObjRef) (k : MoveKey) (tgt : ℚ) (cb : Cb)
    (h1 : (s.get o).interval = none)
    (h2 : (s.get o).attr k = tgt)
    (h3 : ∀ t ∈ s.timers, t.id ≠ s.nextTimerId) :
    (moveObject s o { moveKey := k, target := some tgt, next := some cb }).fired = s.fired ∧
    ((runTick (moveObject s o { moveKey := k, target := some tgt, next := some cb })
        s.nextTimerId).get o).attr k = tgt ∧
    (runTick (moveObject s o { moveKey := k, target := some tgt, next := some cb })
        s.nextTimerId).fired = s.fired ++ [cb] ∧
    ((runTick (moveObject s o { moveKey := k, target := some tgt, next := some cb })
        s.nextTimerId).get o).interval = none ∧
    (runTick (moveObject s o { moveKey := k, target := some tgt, next := some cb })
        s.nextTimerId).timers = s.timers ∧
    runTick (runTick (moveObject s o { moveKey := k, target := some tgt, next := some cb })
        s.nextTimerId) s.nextTimerId =
      runTick (moveObject s o { moveKey := k, target := some tgt, next := some cb })
        s.nextTimerId := by
  have hnot : ¬((s.get o).interval.isSome = true) := by
    rw [h1]
    exact Bool.false_ne_true
  have hXget :
      (moveObject s o { moveKey := k, target := some tgt, next := some cb }).get o
        = { s.get o with interval := some s.nextTimerId } := by
    unfold moveObject
    rw [if_neg hnot]
    show (s.set o { s.get o with interval := some s.nextTimerId }).get o = _
    rw [get_set_same]
  have hXtimers :
      (moveObject s o { moveKey := k, target := some tgt, next := some cb }).timers
        = s.timers ++
          [{ id := s.nextTimerId, objId := o, moveKey := k, target := tgt,
             period := 100, next := some cb }] := by
    unfold moveObject
    rw [if_neg hnot]
    rfl
  have hXfired :
      (moveObject s o { moveKey := k, target := some tgt, next := some cb }).fired
        = s.fired := by
    unfold moveObject
    rw [if_neg hnot]
    rfl
  have hfindpre : s.timers.find? (fun t => t.id = s.nextTimerId) = none := by
    rw [List.find?_eq_none]
    intro t htmem
    simpa using h3 t htmem
  have hfindX :
      (moveObject s o { moveKey := k, target := some tgt, next := some cb }).timers.find?
          (fun u => u.id = s.nextTimerId)
        = some { id := s.nextTimerId, objId := o, moveKey := k, target := tgt,
                 period := 100, next := some cb } := by
    rw [hXtimers, find?_append_right _ _ _ hfindpre]
    simp [List.find?]
  have hrun :
      runTick (moveObject s o { moveKey := k, target := some tgt, next := some cb })
          s.nextTimerId
        = { clearObjInterval
              (moveObject s o { moveKey := k, target := some tgt, next := some cb }) o with
            fired :=
              (clearObjInterval
                (moveObject s o { moveKey := k, target := some tgt, next := some cb }) o).fired
                ++ [cb] } := by
    have hc := runTick_complete
      (moveObject s o { moveKey := k, target := some tgt, next := some cb })
      s.nextTimerId
      { id := s.nextTimerId, objId := o, moveKey := k, target := tgt,
        period := 100, next := some cb }
      hfindX (by rw [hXget, attr_update_interval, h2])
    exact hc
  have hcleartimers :
      (clearObjInterval
          (moveObject s o { moveKey := k, target := some tgt, next := some cb }) o).timers
        = s.timers := by
    rw [clearObjInterval_timers_of_some _ o s.nextTimerId (by rw [hXget]), hXtimers,
      List.filter_append]
    have hall : s.timers.filter (fun t => t.id ≠ s.nextTimerId) = s.timers :=
      List.filter_eq_self.mpr (fun t htmem => by simpa using h3 t htmem)
    rw [hall]
    simp
  refine ⟨hXfired, ?_, ?_, ?_, ?_, ?_⟩
  · rw [hrun]
    show ((clearObjInterval _ o).get o).attr k = tgt
    rw [clearObjInterval_get, if_pos rfl, attr_update_interval, hXget,
      attr_update_interval, h2]
  · rw [hrun]
    show (clearObjInterval _ o).fired ++ [cb] = s.fired ++ [cb]
    rw [clearObjInterval_fired, hXfired]
  · rw [hrun]
    show ((clearObjInterval _ o).get o).interval = none
    rw [clearObjInterval_get, if_pos rfl]
  · rw [hrun]
    show (clearObjInterval _ o).timers = s.timers
    exact hcleartimers
  · rw [hrun]
    apply runTick_of_find_none
    show (clearObjInterval _ o).timers.find? _ = none
    rw [hcleartimers]
    exact hfindpre

/-- Concrete state for the C8 witness: every object rests at `x = 50`, no
timers. -/
def exC8 : GameState := { objs := fun _ => { x := 50 } }

/-- Witness for C8 at a concrete state: moving the arm to its current `x`
fires the callback exactly once and leaves `x` at 50. -/
theorem c8_witness :
    (exC8.get .arm).attr .x = 50 ∧
    (runTick (moveObject exC8 .arm { moveKey := .x, target := some 50, next := some (.mk 3) })
        0).fired = [Cb.mk 3] ∧
    ((runTick (moveObject exC8 .arm { moveKey := .x, target := some 50, next := some (.mk 3) })
        0).get .arm).attr .x = 50 := by
  have h := c8_zero_distance_move exC8 .arm .x 50 (.mk 3) rfl rfl
    (fun t ht => absurd ht (List.not_mem_nil t))
  exact ⟨rfl, h.2.2.1, h.2.1⟩

-- ---- C7: targeting ----

theorem mem_insertDescBy (key : ObjRef → ℤ) (r a : ObjRef) :
    ∀ l : List ObjRef, a ∈ insertDescBy key r l ↔ a = r ∨ a ∈ l := by
  intro l
  induction l with
  | nil => simp [insertDescBy]
  | cons b bs ih =>
      unfold insertDescBy
      split
      · simp
      · simp only [List.mem_cons, ih]
        tauto

theorem mem_sortDescBy (key : ObjRef → ℤ) (a : ObjRef) :
    ∀ l : List ObjRef, a ∈ sortDescBy key l ↔ a ∈ l := by
  intro l
  induction l with
  | nil => simp [sortDescBy]
  | cons b bs ih =>
      unfold sortDescBy
      rw [mem_insertDescBy]
      simp [ih]

/-- The head of the descending sort is a maximal-key element of the input. -/
theorem sortDescBy_head_max (key : ObjRef → ℤ) :
    ∀ (l : List ObjRef) (c : ObjRef) (cs : List ObjRef),
      sortDescBy key l = c :: cs → c ∈ l ∧ ∀ a ∈ l, key a ≤ key c := by
  intro l
  induction l with
  | nil => intro c cs h; cases h
  | cons r rs ih =>
      intro c cs h
      unfold sortDescBy at h
      cases hm : sortDescBy key rs with
      | nil =>
          rw [hm] at h
          unfold insertDescBy at h
          cases h
          refine ⟨List.mem_cons_self r rs, ?_⟩
          intro a ha
          rcases List.mem_cons.mp ha with rfl | ha
          · exact le_refl _
          · have : a ∈ sortDescBy key rs := (mem_sortDescBy key a rs).mpr ha
            rw [hm] at this
            cases this
      | cons b bs =>
          rw [hm] at h
          have hb := ih b bs hm
          unfold insertDescBy at h
          split at h
          · rename_i hge
            cases h
            refine ⟨List.mem_cons_self r rs, ?_⟩
            intro a ha
            rcases List.mem_cons.mp ha with rfl | ha
            · exact le_refl _
            · exact le_trans (hb.2 a ha) hge
          · rename_i hlt
            cases h
            push_neg at hlt
            refine ⟨List.mem_cons_of_mem r hb.1, ?_⟩
            intro a ha
            rcases List.mem_cons.mp ha with rfl | ha
            · exact le_of_lt hlt
            · exact hb.2 a ha

/-- C7: a toy overlaps the claw iff the claw's anchor point lies strictly
inside the toy's rectangle on both axes (equal edges never count), and when
any toy overlaps, `getClosestToy` stores an overlapping toy with the
greatest spawn index as the session's targeted toy. -/
theorem c7_targeting :
    (∀ a b : Rect,
      doOverlap a b = true ↔ (a.x < b.x ∧ b.x < a.x + a.w ∧ a.y < b.y ∧ b.y < a.y + a.h)) ∧
    (∀ (s : GameState) (r : ObjRef),
      r ∈ s.toyEls → doOverlap (s.get r).rect (clawRect s) = true →
      ∃ c, (getClosestToy s).targetToy = some c ∧
        c ∈ s.toyEls ∧ doOverlap (s.get c).rect (clawRect s) = true ∧
        ∀ a ∈ s.toyEls, doOverlap (s.get a).rect (clawRect s) = true →
          (s.get a).index ≤ (s.get c).index) := by
  constructor
  · intro a b
    simp [doOverlap, and_assoc]
  · intro s r hr hov
    have hrf : r ∈ s.toyEls.filter (fun u => doOverlap (s.get u).rect (clawRect s)) :=
      List.mem_filter.mpr ⟨hr, hov⟩
    cases hs : sortDescBy (fun u => (s.get u).index)
        (s.toyEls.filter (fun u => doOverlap (s.get u).rect (clawRect s))) with
    | nil =>
        have : r ∈ sortDescBy (fun u => (s.get u).index)
            (s.toyEls.filter (fun u => doOverlap (s.get u).rect (clawRect s))) :=
          (mem_sortDescBy _ r _).mpr hrf
        rw [hs] at this
        cases this
    | cons c cs =>
        have hmax := sortDescBy_head_max (fun u => (s.get u).index) _ c cs hs
        have hcf := List.mem_filter.mp hmax.1
        refine ⟨c, ?_, hcf.1, hcf.2, ?_⟩
        · simp only [getClosestToy]
          rw [hs]
        · intro a ha hova
          exact hmax.2 a (List.mem_filter.mpr ⟨ha, hova⟩)

/-- Concrete state for the C7 witness: toys with spawn indices 3 and 7 both
overlap the claw footprint. -/
def exC7 : GameState :=
  { objs := fun p =>
      match p with
      | .toy 3 => { x := 80, y := 180, w := 40, h := 40, index := 3 }
      | .toy 7 => { x := 90, y := 190, w := 40, h := 40, index := 7 }
      | .armJoint => { x := 93, y := 27 }
      | _ => {}
    toyEls := [.toy 3, .toy 7]
    maxArmLength := 150 }

/-- Witness for C7: at the concrete two-toy state the selected toy is an
overlapping toy of maximal spawn index. -/
theorem c7_witness :
    doOverlap (exC7.get (.toy 3)).rect (clawRect exC7) = true ∧
    ∃ c, (getClosestToy exC7).targetToy = some c ∧
      c ∈ exC7.toyEls ∧ doOverlap (exC7.get c).rect (clawRect exC7) = true ∧
      ∀ a ∈ exC7.toyEls, doOverlap (exC7.get a).rect (clawRect exC7) = true →
        (exC7.get a).index ≤ (exC7.get c).index := by
  have hov : doOverlap (exC7.get (.toy 3)).rect (clawRect exC7) = true := by
    norm_num [doOverlap, clawRect, exC7, GameState.get, WObj.rect, machineBufferY]
  exact ⟨hov, c7_targeting.2 exC7 (.toy 3) (by simp [exC7]) hov⟩

-- ---- Propagation lemmas (for the attachment claims) ----

@[simp] theorem attr_setAttr_same (o : WObj) (k : MoveKey) (v : ℚ) :
    (o.setAttr k v).attr k = v := by
  cases k <;> rfl

@[simp] theorem attr_setAttr_ne (o : WObj) (k k' : MoveKey) (v : ℚ) (h : k' ≠ k) :
    (o.setAttr k v).attr k' = o.attr k' := by
  cases k <;> cases k' <;> first
    | rfl
    | exact absurd rfl h

@[simp] theorem moveWith_setAttr (o : WObj) (k : MoveKey) (v : ℚ) :
    (o.setAttr k v).moveWith = o.moveWith := by
  cases k <;> rfl

@[simp] theorem classes_setAttr (o : WObj) (k : MoveKey) (v : ℚ) :
    (o.setAttr k v).classes = o.classes := by
  cases k <;> rfl

@[simp] theorem z_setAttr (o : WObj) (k : MoveKey) (v : ℚ) :
    (o.setAttr k v).z = o.z := by
  cases k <;> rfl

@[simp] theorem wfield_setAttr (o : WObj) (k : MoveKey) (v : ℚ) :
    (o.setAttr k v).w = o.w := by
  cases k <;> rfl

@[simp] theorem angle_setAttr (o : WObj) (k : MoveKey) (v : ℚ) :
    (o.setAttr k v).angle = o.angle := by
  cases k <;> rfl

@[simp] theorem interval_setAttr (o : WObj) (k : MoveKey) (v : ℚ) :
    (o.setAttr k v).interval = o.interval := by
  cases k <;> rfl

@[simp] theorem propagate_timers (k : MoveKey) (inc : ℚ) :
    ∀ (l : List (Option ObjRef)) (s : GameState), (propagate k inc s l).timers = s.timers := by
  intro l
  induction l with
  | nil => intro s; rfl
  | cons m? rest ih =>
      intro s
      cases m? with
      | none => exact ih s
      | some m => rw [propagate, ih]; rfl

@[simp] theorem propagate_fired (k : MoveKey) (inc : ℚ) :
    ∀ (l : List (Option ObjRef)) (s : GameState), (propagate k inc s l).fired = s.fired := by
  intro l
  induction l with
  | nil => intro s; rfl
  | cons m? rest ih =>
      intro s
      cases m? with
      | none => exact ih s
      | some m => rw [propagate, ih]; rfl

theorem propagate_get_not_mem (k : MoveKey) (inc : ℚ) :
    ∀ (l : List (Option ObjRef)) (s : GameState) (p : ObjRef),
      (some p) ∉ l → (propagate k inc s l).get p = s.get p := by
  intro l
  induction l with
  | nil => intro s p _; rfl
  | cons m? rest ih =>
      intro s p hp
      cases m? with
      | none => exact ih s p (fun hmem => hp (List.mem_cons_of_mem _ hmem))
      | some m =>
          rw [propagate, ih _ p (fun hmem => hp (List.mem_cons_of_mem _ hmem))]
          have hne : p ≠ m := fun he => hp (by rw [he]; exact List.mem_cons_self _ _)
          rw [get_set_ne _ _ _ _ hne]

theorem propagate_get_attr_count (k : MoveKey) (inc : ℚ) :
    ∀ (l : List (Option ObjRef)) (s : GameState) (p : ObjRef),
      ((propagate k inc s l).get p).attr (propKey k)
        = (s.get p).attr (propKey k) + (l.count (some p) : ℚ) * inc := by
  intro l
  induction l with
  | nil => intro s p; simp [propagate]
  | cons m? rest ih =>
      intro s p
      cases m? with
      | none =>
          rw [propagate, ih]
          have : (none :: rest).count (some p) = rest.count (some p) := by
            rw [List.count_cons]
            simp
          rw [this]
      | some m =>
          rw [propagate, ih]
          by_cases hpm : p = m
          · subst hpm
            rw [get_set_same, attr_setAttr_same]
            have : (some p :: rest).count (some p) = rest.count (some p) + 1 := by
              rw [List.count_cons]
              simp
            rw [this]
            push_cast
            ring
          · rw [get_set_ne _ _ _ _ hpm]
            have : (some m :: rest).count (some p) = rest.count (some p) := by
              rw [List.count_cons]
              simp [Ne.symm hpm]
            rw [this]

theorem propagate_get_attr_other (k : MoveKey) (inc : ℚ) (k' : MoveKey)
    (hk : k' ≠ propKey k) :
    ∀ (l : List (Option ObjRef)) (s : GameState) (p : ObjRef),
      ((propagate k inc s l).get p).attr k' = (s.get p).attr k' := by
  intro l
  induction l with
  | nil => intro s p; rfl
  | cons m? rest ih =>
      intro s p
      cases m? with
      | none => exact ih s p
      | some m =>
          rw [propagate, ih]
          by_cases hpm : p = m
          · subst hpm
            rw [get_set_same, attr_setAttr_ne _ _ _ _ hk]
          · rw [get_set_ne _ _ _ _ hpm]

theorem propagate_get_moveWith (k : MoveKey) (inc : ℚ) :
    ∀ (l : List (Option ObjRef)) (s : GameState) (p : ObjRef),
      ((propagate k inc s l).get p).moveWith = (s.get p).moveWith := by
  intro l
  induction l with
  | nil => intro s p; rfl
  | cons m? rest ih =>
      intro s p
      cases m? with
      | none => exact ih s p
      | some m =>
          rw [propagate, ih]
          by_cases hpm : p = m
          · subst hpm
            rw [get_set_same, moveWith_setAttr]
          · rw [get_set_ne _ _ _ _ hpm]

-- ---- Tick-level frame lemmas ----

theorem clearObjInterval_timers_subset (s : GameState) (o : ObjRef) :
    ∀ u ∈ (clearObjInterval s o).timers, u ∈ s.timers := by
  intro u hu
  unfold clearObjInterval at hu
  split at hu
  · simp only [set_timers] at hu
    exact List.mem_of_mem_filter hu
  · exact hu

/-- `tickComplete` changes at most the driver's timer handle and the fired
log in the store. -/
theorem tickComplete_get (s : GameState) (t : Timer) (p : ObjRef) :
    (tickComplete s t).get p = (clearObjInterval s t.objId).get p := by
  unfold tickComplete
  cases t.next <;> rfl

theorem tickComplete_timers (s : GameState) (t : Timer) :
    (tickComplete s t).timers = (clearObjInterval s t.objId).timers := by
  unfold tickComplete
  cases t.next <;> rfl

/-- A tick never changes any object's `moveWith` list. -/
theorem runTick_get_moveWith (s : GameState) (tid : Nat) (p : ObjRef) :
    ((runTick s tid).get p).moveWith = (s.get p).moveWith := by
  cases hf : s.timers.find? (fun u => u.id = tid) with
  | none => rw [runTick_of_find_none s tid hf]
  | some t =>
      rw [runTick_eq s tid t hf]
      by_cases hsm : tickShouldMove s t = true
      · rw [if_pos hsm]
        unfold tickMove
        rw [propagate_get_moveWith]
        by_cases hp : p = t.objId
        · subst hp
          rw [get_set_same, moveWith_setAttr]
        · rw [get_set_ne _ _ _ _ hp]
      · rw [if_neg hsm, tickComplete_get, clearObjInterval_get]
        by_cases hp : p = t.objId
        · subst hp
          rw [if_pos rfl]
        · rw [if_neg hp]

/-- A tick never adds timers: its live set is a subset of the previous one. -/
theorem runTick_timers_subset (s : GameState) (tid : Nat) :
    ∀ u ∈ (runTick s tid).timers, u ∈ s.timers := by
  intro u hu
  cases hf : s.timers.find? (fun v => v.id = tid) with
  | none => rw [runTick_of_find_none s tid hf] at hu; exact hu
  | some t =>
      rw [runTick_eq s tid t hf] at hu
      by_cases hsm : tickShouldMove s t = true
      · rw [if_pos hsm] at hu
        unfold tickMove at hu
        rw [propagate_timers, set_timers] at hu
        exact hu
      · rw [if_neg hsm, tickComplete_timers] at hu
        exact clearObjInterval_timers_subset s t.objId u hu

-- ---- C9: extension-to-toy propagation ----

@[simp] theorem attr_key_x (o : WObj) : o.attr .x = o.x := rfl

@[simp] theorem attr_key_y (o : WObj) : o.attr .y = o.y := rfl

@[simp] theorem attr_key_h (o : WObj) : o.attr .h = o.h := rfl

/-- One tick of a timer driving `h`: the driver's `h` delta equals the `y`
delta of an object that occupies the driver's `moveWith` list exactly once. -/
theorem runTick_h_to_y_delta (s : GameState) (tid : Nat) (r : ObjRef) (t : Timer)
    (hfind : s.timers.find? (fun u => u.id = tid) = some t)
    (hk : t.moveKey = .h)
    (hcount : (s.get t.objId).moveWith.count (some r) = 1) :
    ((runTick s tid).get r).y - (s.get r).y
      = ((runTick s tid).get t.objId).h - (s.get t.objId).h := by
  rw [runTick_eq s tid t hfind]
  by_cases hsm : tickShouldMove s t = true
  · rw [if_pos hsm]
    unfold tickMove
    rw [hk]
    have hy :
        ((propagate .h (tickIncrement s t)
            (s.set t.objId
              ((s.get t.objId).setAttr .h
                ((s.get t.objId).attr .h + tickIncrement s t)))
            (s.get t.objId).moveWith).get r).attr (propKey .h)
          = ((s.set t.objId
              ((s.get t.objId).setAttr .h
                ((s.get t.objId).attr .h + tickIncrement s t))).get r).attr (propKey .h)
            + ((s.get t.objId).moveWith.count (some r) : ℚ) * tickIncrement s t :=
      propagate_get_attr_count .h (tickIncrement s t) _ _ r
    have hh :
        ((propagate .h (tickIncrement s t)
            (s.set t.objId
              ((s.get t.objId).setAttr .h
                ((s.get t.objId).attr .h + tickIncrement s t)))
            (s.get t.objId).moveWith).get t.objId).attr .h
          = ((s.set t.objId
              ((s.get t.objId).setAttr .h
                ((s.get t.objId).attr .h + tickIncrement s t))).get t.objId).attr .h :=
      propagate_get_attr_other .h (tickIncrement s t) .h (by decide) _ _ t.objId
    rw [hcount] at hy
    have hbase :
        ((s.set t.objId
            ((s.get t.objId).setAttr .h
              ((s.get t.objId).attr .h + tickIncrement s t))).get r).attr (propKey .h)
          = (s.get r).y := by
      by_cases hro : r = t.objId
      · subst hro
        rw [get_set_same]
        show ((s.get t.objId).setAttr .h _).attr .y = _
        rw [attr_setAttr_ne _ _ _ _ (by decide), attr_key_y]
      · rw [get_set_ne _ _ _ _ hro]
        rfl
    have hbase2 :
        ((s.set t.objId
            ((s.get t.objId).setAttr .h
              ((s.get t.objId).attr .h + tickIncrement s t))).get t.objId).attr .h
          = (s.get t.objId).h + tickIncrement s t := by
      rw [get_set_same, attr_setAttr_same, attr_key_h]
    have hy' : ((propagate .h (tickIncrement s t)
        (s.set t.objId
          ((s.get t.objId).setAttr .h
            ((s.get t.objId).attr .h + tickIncrement s t)))
        (s.get t.objId).moveWith).get r).y
        = (s.get r).y + tickIncrement s t := by
      have := hy
      rw [hbase] at this
      simpa using this
    have hh' : ((propagate .h (tickIncrement s t)
        (s.set t.objId
          ((s.get t.objId).setAttr .h
            ((s.get t.objId).attr .h + tickIncrement s t)))
        (s.get t.objId).moveWith).get t.objId).h
        = (s.get t.objId).h + tickIncrement s t := by
      have := hh
      rw [hbase2] at this
      simpa using this
    rw [hy', hh']
    ring
  · rw [if_neg hsm, tickComplete_get, tickComplete_get, clearObjInterval_get,
      clearObjInterval_get]
    by_cases hro : r = t.objId
    · subst hro
      rw [if_pos rfl]
      simp
    · rw [if_neg hro, if_pos rfl]
      simp

/-- C9: while a toy occupies the driven object's attached list (exactly
once) and every live timer with the driving id moves that object's `h`
attribute, any number of ticks changes the toy's `y` by exactly the amount
the driver's `h` changed. -/
theorem c9_extension_propagates (o r : ObjRef) (tid : Nat) :
    ∀ (n : Nat) (s : GameState),
      (∀ t ∈ s.timers, t.id = tid → t.objId = o ∧ t.moveKey = .h) →
      (s.get o).moveWith.count (some r) = 1 →
      ((runTicks s tid n).get r).y - (s.get r).y
        = ((runTicks s tid n).get o).h - (s.get o).h := by
  intro n
  induction n with
  | zero =>
      intro s _ _
      simp [runTicks]
  | succ n ih =>
      intro s hA hcount
      rw [runTicks]
      have hA' : ∀ t ∈ (runTick s tid).timers, t.id = tid → t.objId = o ∧ t.moveKey = .h :=
        fun t ht hid => hA t (runTick_timers_subset s tid t ht) hid
      have hcount' : ((runTick s tid).get o).moveWith.count (some r) = 1 := by
        rw [runTick_get_moveWith]
        exact hcount
      have hstep := ih (runTick s tid) hA' hcount'
      cases hf : s.timers.find? (fun u => u.id = tid) with
      | none =>
          rw [runTick_of_find_none s tid hf] at hstep ⊢
          exact hstep
      | some t =>
          obtain ⟨ho, hk⟩ := hA t (List.mem_of_find?_eq_some hf)
            (by simpa using List.find?_some hf)
          have h1 := runTick_h_to_y_delta s tid r t hf hk (by rw [ho]; exact hcount)
          rw [ho] at h1
          linarith [hstep, h1]

/-- Concrete state for the C9 witness: the arm (holding toy 0 in its
attached list) is driven on `h` toward 30 by timer 0. -/
def exC9 : GameState :=
  { objs := fun p =>
      match p with
      | .arm => { h := 0, moveWith := [some (.toy 0)] }
      | .toy 0 => { y := 5 }
      | _ => {}
    timers := [⟨0, .arm, .h, 30, 100, none⟩]
    nextTimerId := 1 }

/-- Witness for C9: two ticks of the extension timer move the toy's `y` by
exactly the driver's `h` delta. -/
theorem c9_witness :
    (exC9.get .arm).moveWith.count (some (.toy 0)) = 1 ∧
    ((runTicks exC9 0 2).get (.toy 0)).y - (exC9.get (.toy 0)).y
      = ((runTicks exC9 0 2).get .arm).h - (exC9.get .arm).h := by
  refine ⟨rfl, c9_extension_propagates .arm (.toy 0) 0 2 exC9 ?_ rfl⟩
  intro t ht hid
  have : t = ⟨0, .arm, .h, 30, 100, none⟩ := List.mem_singleton.mp ht
  subst this
  exact ⟨rfl, rfl⟩

-- ---- C10: tick frame condition ----

@[simp] theorem setAttr_attr_self (o : WObj) (k : MoveKey) :
    o.setAttr k (o.attr k) = o := by
  cases k <;> rfl

@[simp] theorem setAttr_setAttr (o : WObj) (k : MoveKey) (a b : ℚ) :
    (o.setAttr k a).setAttr k b = o.setAttr k b := by
  cases k <;> rfl

/-- Propagation changes each object only at the propagated attribute. -/
theorem propagate_get_shape (k : MoveKey) (inc : ℚ) :
    ∀ (l : List (Option ObjRef)) (s : GameState) (p : ObjRef),
      ∃ v, (propagate k inc s l).get p = (s.get p).setAttr (propKey k) v := by
  intro l
  induction l with
  | nil =>
      intro s p
      exact ⟨(s.get p).attr (propKey k), by rw [setAttr_attr_self]; rfl⟩
  | cons m? rest ih =>
      intro s p
      cases m? with
      | none => exact ih s p
      | some m =>
          obtain ⟨v, hv⟩ := ih
            (s.set m
              ((s.get m).setAttr (propKey k) ((s.get m).attr (propKey k) + inc))) p
          by_cases hpm : p = m
          · subst hpm
            refine ⟨v, ?_⟩
            rw [propagate, hv, get_set_same, setAttr_setAttr]
          · refine ⟨v, ?_⟩
            rw [propagate, hv, get_set_ne _ _ _ _ hpm]

/-- C10: a movement tick on a found timer mutates only the driver's driven
attribute and, for each object in the driver's attached list, that object's
single corresponding attribute; every uninvolved object is untouched
(including objects attached to a passenger — propagation does not cascade),
non-driven attributes of involved objects are untouched, and no tick ever
changes `moveWith`, `classes`, `z`, `w` or `angle` of anything, nor the
timer handle of any object other than the driver. -/
theorem c10_tick_frame (s : GameState) (tid : Nat) (t : Timer)
    (hfind : s.timers.find? (fun u => u.id = tid) = some t)
    (hself : (some t.objId) ∉ (s.get t.objId).moveWith) :
    (∀ p, p ≠ t.objId → (some p) ∉ (s.get t.objId).moveWith →
      (runTick s tid).get p = s.get p) ∧
    (∀ p k, p ≠ t.objId → k ≠ propKey t.moveKey →
      ((runTick s tid).get p).attr k = (s.get p).attr k) ∧
    (∀ k, k ≠ t.moveKey → ((runTick s tid).get t.objId).attr k = (s.get t.objId).attr k) ∧
    (∀ p, ((runTick s tid).get p).moveWith = (s.get p).moveWith ∧
      ((runTick s tid).get p).classes = (s.get p).classes ∧
      ((runTick s tid).get p).z = (s.get p).z ∧
      ((runTick s tid).get p).w = (s.get p).w ∧
      ((runTick s tid).get p).angle = (s.get p).angle) ∧
    (∀ p, p ≠ t.objId → ((runTick s tid).get p).interval = (s.get p).interval) ∧
    (∀ m q, (some m) ∈ (s.get t.objId).moveWith → (some q) ∈ (s.get m).moveWith →
      q ≠ t.objId → (some q) ∉ (s.get t.objId).moveWith →
      (runTick s tid).get q = s.get q) := by
  have hW : (tickMove s t).get t.objId
      = (s.get t.objId).setAttr t.moveKey
          ((s.get t.objId).attr t.moveKey + tickIncrement s t) := by
    unfold tickMove
    rw [propagate_get_not_mem _ _ _ _ _ hself, get_set_same]
  have hP : ∀ p, p ≠ t.objId →
      ∃ v, (tickMove s t).get p = (s.get p).setAttr (propKey t.moveKey) v := by
    intro p hp
    unfold tickMove
    obtain ⟨v, hv⟩ :=
      propagate_get_shape t.moveKey (tickIncrement s t) (s.get t.objId).moveWith
        (s.set t.objId
          ((s.get t.objId).setAttr t.moveKey
            ((s.get t.objId).attr t.moveKey + tickIncrement s t))) p
    exact ⟨v, by rw [hv, get_set_ne _ _ _ _ hp]⟩
  have hM : ∀ p, p ≠ t.objId → (some p) ∉ (s.get t.objId).moveWith →
      (tickMove s t).get p = s.get p := by
    intro p hp hpm
    unfold tickMove
    rw [propagate_get_not_mem _ _ _ _ _ hpm, get_set_ne _ _ _ _ hp]
  have hC : ∀ p, (tickComplete s t).get p
      = if p = t.objId then { s.get t.objId with interval := none } else s.get p := by
    intro p
    rw [tickComplete_get, clearObjInterval_get]
  have hone : ∀ p, p ≠ t.objId → (some p) ∉ (s.get t.objId).moveWith →
      (runTick s tid).get p = s.get p := by
    intro p hp hpm
    rw [runTick_eq s tid t hfind]
    by_cases hsm : tickShouldMove s t = true
    · rw [if_pos hsm]
      exact hM p hp hpm
    · rw [if_neg hsm, hC, if_neg hp]
  refine ⟨hone, ?_, ?_, ?_, ?_, ?_⟩
  · intro p k hp hk
    rw [runTick_eq s tid t hfind]
    by_cases hsm : tickShouldMove s t = true
    · rw [if_pos hsm]
      obtain ⟨v, hv⟩ := hP p hp
      rw [hv, attr_setAttr_ne _ _ _ _ hk]
    · rw [if_neg hsm, hC, if_neg hp]
  · intro k hk
    rw [runTick_eq s tid t hfind]
    by_cases hsm : tickShouldMove s t = true
    · rw [if_pos hsm, hW, attr_setAttr_ne _ _ _ _ hk]
    · rw [if_neg hsm, hC, if_pos rfl, attr_update_interval]
  · intro p
    rw [runTick_eq s tid t hfind]
    by_cases hsm : tickShouldMove s t = true
    · rw [if_pos hsm]
      by_cases hp : p = t.objId
      · subst hp
        rw [hW]
        cases t.moveKey <;> exact ⟨rfl, rfl, rfl, rfl, rfl⟩
      · obtain ⟨v, hv⟩ := hP p hp
        rw [hv]
        cases propKey t.moveKey <;> exact ⟨rfl, rfl, rfl, rfl, rfl⟩
    · rw [if_neg hsm, hC]
      by_cases hp : p = t.objId
      · subst hp
        rw [if_pos rfl]
        exact ⟨rfl, rfl, rfl, rfl, rfl⟩
      · rw [if_neg hp]
        exact ⟨rfl, rfl, rfl, rfl, rfl⟩
  · intro p hp
    rw [runTick_eq s tid t hfind]
    by_cases hsm : tickShouldMove s t = true
    · rw [if_pos hsm]
      obtain ⟨v, hv⟩ := hP p hp
      rw [hv, interval_setAttr]
    · rw [if_neg hsm, hC, if_neg hp]
  · intro m q _ _ hq hqm
    exact hone q hq hqm

/-- Concrete state for the C10 witness: the arm drives `h` with toy 0
attached, and toy 0 itself has toy 1 in its own attached list. -/
def exC10 : GameState :=
  { objs := fun p =>
      match p with
      | .arm => { h := 0, moveWith := [some (.toy 0)] }
      | .toy 0 => { y := 5, moveWith := [some (.toy 1)] }
      | .toy 1 => { y := 9 }
      | _ => {}
    timers := [⟨0, .arm, .h, 30, 100, none⟩]
    nextTimerId := 1 }

/-- Witness for C10: one tick moves the arm and toy 0 only — toy 1 (attached
to the passenger) and the vertical rail are untouched. -/
theorem c10_witness :
    (some ObjRef.arm) ∉ (exC10.get .arm).moveWith ∧
    (runTick exC10 0).get (.toy 1) = exC10.get (.toy 1) ∧
    (runTick exC10 0).get .vertRail = exC10.get .vertRail := by
  have h := c10_tick_frame exC10 0 ⟨0, .arm, .h, 30, 100, none⟩ rfl (by decide)
  refine ⟨by decide, ?_, ?_⟩
  · exact h.2.2.2.2.2 (.toy 0) (.toy 1) (by decide) (by decide) (by decide) (by decide)
  · exact h.1 .vertRail (by decide) (by decide)

-- ---- C2: collection at-most-once ----

/-- Concrete state for the C2 claims: toy 0 is in its post-drop `selected`
state, one turn remains, and the machine geometry places the centered
display slot under the claw's descent line. -/
def exC2 : GameState :=
  { objs := fun p =>
      match p with
      | .toy 0 =>
          { x := 10, y := 20, w := 40, h := 40, index := 0, toyType := "duck",
            classes := ["selected"] }
      | .vertRail => { moveWith := [none, some .armJoint] }
      | .armJoint => { x := 93, y := 27 }
      | _ => {}
    toyEls := [.toy 0]
    remainingTurns := 1
    machineWidth := 200
    machineHeight := 400
    maxArmLength := 150 }

/-- The state after the toy's first (effective) collection click. -/
def c2AfterFirst : GameState := clickToy exC2 (.toy 0)

/-- A later full grab cycle re-targets the collected toy (its display slot
overlaps the claw footprint), re-selects it at drop time, and a further
click collects it again. -/
def c2Rechain : GameState :=
  clickToy (dropToyDelayed (dropToy (grabToy (getClosestToy c2AfterFirst) 0))) (.toy 0)

/-- C2 counterexample: the first click collects the toy
(`collectedNumber = 1`) and an immediate second click is a no-op, but the
collected toy is never removed from the targeting list, so a later grab
cycle whose claw overlaps the display slot re-selects it and one more click
collects the SAME toy again — `collectedNumber` reaches 2 and a second
toy-collected notification for the same toy type is sent. -/
theorem c2_counterexample :
    c2AfterFirst.collectedNumber = 1 ∧
    clickToy c2AfterFirst (.toy 0) = c2AfterFirst ∧
    (getClosestToy c2AfterFirst).targetToy = some (.toy 0) ∧
    c2Rechain.collectedNumber = 2 ∧
    c2Rechain.messages.count (Msg.toyCollected "duck") = 2 := by
  have hg0 : exC2.get (.toy 0)
      = { x := 10, y := 20, w := 40, h := 40, index := 0, toyType := "duck",
          classes := ["selected"] } := rfl
  have hga : exC2.get .armJoint = { x := 93, y := 27 } := rfl
  have hgarm : exC2.get .arm = {} := rfl
  have hgv : exC2.get .vertRail = { moveWith := [none, some .armJoint] } := rfl
  have hmw : exC2.machineWidth = 200 := rfl
  have hmh : exC2.machineHeight = 400 := rfl
  have hmal : exC2.maxArmLength = 150 := rfl
  have hrt : exC2.remainingTurns = 1 := rfl
  have htoys : exC2.toyEls = [ObjRef.toy 0] := rfl
  have hmsg : exC2.messages = [] := rfl
  have hcoll : exC2.collectedNumber = 0 := rfl
  have sk1 : ∀ (s : GameState) (w : WObj),
      (s.set (.toy 0) w).get .armJoint = s.get .armJoint :=
    fun s w => get_set_ne s _ _ w (by decide)
  have sk2 : ∀ (s : GameState) (w : WObj),
      (s.set (.toy 0) w).get .vertRail = s.get .vertRail :=
    fun s w => get_set_ne s _ _ w (by decide)
  have sk3 : ∀ (s : GameState) (w : WObj),
      (s.set (.toy 0) w).get .arm = s.get .arm :=
    fun s w => get_set_ne s _ _ w (by decide)
  have sk4 : ∀ (s : GameState) (w : WObj),
      (s.set .armJoint w).get (.toy 0) = s.get (.toy 0) :=
    fun s w => get_set_ne s _ _ w (by decide)
  have sk5 : ∀ (s : GameState) (w : WObj),
      (s.set .vertRail w).get (.toy 0) = s.get (.toy 0) :=
    fun s w => get_set_ne s _ _ w (by decide)
  have sk6 : ∀ (s : GameState) (w : WObj),
      (s.set .arm w).get (.toy 0) = s.get (.toy 0) :=
    fun s w => get_set_ne s _ _ w (by decide)
  have sk7 : ∀ (s : GameState) (w : WObj),
      (s.set .vertRail w).get .armJoint = s.get .armJoint :=
    fun s w => get_set_ne s _ _ w (by decide)
  have sk8 : ∀ (s : GameState) (w : WObj),
      (s.set .arm w).get .armJoint = s.get .armJoint :=
    fun s w => get_set_ne s _ _ w (by decide)
  have sk9 : ∀ (s : GameState) (w : WObj),
      (s.set .armJoint w).get .vertRail = s.get .vertRail :=
    fun s w => get_set_ne s _ _ w (by decide)
  have sk10 : ∀ (s : GameState) (w : WObj),
      (s.set .arm w).get .vertRail = s.get .vertRail :=
    fun s w => get_set_ne s _ _ w (by decide)
  have sk11 : ∀ (s : GameState) (w : WObj),
      (s.set .armJoint w).get .arm = s.get .arm :=
    fun s w => get_set_ne s _ _ w (by decide)
  have sk12 : ∀ (s : GameState) (w : WObj),
      (s.set .vertRail w).get .arm = s.get .arm :=
    fun s w => get_set_ne s _ _ w (by decide)
  have st1 : ("selected" : String) ≠ "display" := by decide
  have st2 : ("selected" : String) ≠ "grabbed" := by decide
  have st3 : ("grabbed" : String) ≠ "display" := by decide
  have st4 : ("display" : String) ≠ "selected" := by decide
  have st5 : ("grabbed" : String) ≠ "selected" := by decide
  have st6 : ("display" : String) ≠ "grabbed" := by decide
  norm_num [sk1, sk2, sk3, sk4, sk5, sk6, sk7, sk8, sk9, sk10, sk11, sk12,
    st1, st2, st3, st4, st5, st6,
    c2Rechain, c2AfterFirst, clickToy, collectToy, getClosestToy, grabToy,
    dropToy, dropToyDelayed, setRotateAngleOn, activateHoriBtn,
    addClass, removeClass, setIdx0, doOverlap, clawRect, sortDescBy,
    insertDescBy, machineBufferX, machineBufferY,
    WObj.rect, List.find?, List.foldl, List.filter, List.count, List.countP,
    get_mk, objs_eq_get,
    hg0, hga, hgarm, hgv, hmw, hmh, hmal, hrt, htoys, hmsg, hcoll]
  decide

/-- C2 (amended): collecting a toy removes its `selected` state, and since a
toy's click is only delivered while it is selected, any further click on the
just-collected toy is a complete no-op (no relocation, no `collectedNumber`
increment, no notification) — until some later grab cycle re-selects it. -/
theorem c2_click_noop_after_collect (s : GameState) (r : ObjRef) :
    "selected" ∉ ((collectToy s r).get r).classes ∧
    clickToy (collectToy s r) r = collectToy s r := by
  have hcls : ((collectToy s r).get r).classes
      = addClass (removeClass (s.get r).classes "selected") "display" := by
    simp [collectToy, get_mk, objs_eq_get]
  have hnot : "selected" ∉ ((collectToy s r).get r).classes := by
    rw [hcls]
    intro hmem
    unfold addClass at hmem
    split at hmem
    · have hd := (List.mem_filter.mp hmem).2
      simp at hd
    · rcases List.mem_append.mp hmem with h1 | h2
      · have hd := (List.mem_filter.mp h1).2
        simp at hd
      · exact absurd (List.mem_singleton.mp h2) (by decide)
  refine ⟨hnot, ?_⟩
  unfold clickToy
  rw [if_neg hnot]

end Claw
